import Mathlib

/-!
Verification of the HUME polling-and-aggregation service (`src/app.py`).

The embedding models the two components of the service:

* the poll loop of `process_hume` (lines 45-87): a bounded retry loop that
  classifies each HTTP response and either terminates the request or sleeps
  and retries;
* the score aggregation of `process_hume` (lines 89-168): a single pass over
  the frame list producing running sums, per-label dominant counts, and the
  final response record, together with the threshold function `get_level`.

Machine reals are modelled as exact rationals; Python `round(x, 2)` is
modelled as `round2` below (round to the nearest hundredth).
-/

namespace Hume

/-- One (label, score) pair inside a frame's `emotions` collection. -/
structure Emotion where
  name : String
  score : ℚ
deriving DecidableEq

/-- A frame is its `emotions` list (`frame.get("emotions", [])`). -/
abbrev Frame := List Emotion

/-- Python `round(x, 2)`: round to the nearest hundredth. -/
def round2 (q : ℚ) : ℚ := (round (q * 100) : ℚ) / 100

/-- `get_level` (app.py lines 21-27). -/
def get_level (score : ℚ) : String :=
  if score ≥ 0.7 then "High"
  else if score ≥ 0.4 then "Moderate"
  else "Low"

/-! ### Poller (app.py lines 45-87) -/

/-- Classification of the body of an HTTP 200 response, as the code tests it
(lines 60-69): a JSON list of length > 0 whose head has a "results" key is
`completed`; other valid JSON is `badShape`; unparseable text is `notJson`. -/
inductive Body where
  | completed
  | badShape
  | notJson
deriving DecidableEq

/-- One provider response: either a transport-level exception raised by
`requests.get` (line 52) or a status code with a body. -/
inductive Response where
  | exn
  | resp (code : Nat) (body : Body)
deriving DecidableEq

/-- How one request terminates, matching the return points of
`process_hume`'s poll loop. -/
inductive PollResult where
  | success
  | connectionError
  | badFormat
  | parseError
  | notFound
  | unauthorized
  | providerError
  | timeout
deriving DecidableEq

/-- The HTTP status the service attaches to each poll outcome. -/
def pollHttpStatus : PollResult → Nat
  | .success => 200
  | .notFound => 404
  | .unauthorized => 401
  | _ => 500

/-- One iteration of the poll loop (lines 50-83): `some r` means the loop
terminates the request with `r`; `none` means the iteration falls through to
`time.sleep(10)` and the next attempt. -/
def pollStep (r : Response) : Option PollResult :=
  match r with
  | .exn => some .connectionError
  | .resp code body =>
    if code = 200 then
      match body with
      | .completed => some .success
      | .badShape => some .badFormat
      | .notJson => some .parseError
    else if code = 404 then some .notFound
    else if code = 401 then some .unauthorized
    else if code = 500 then some .providerError
    else none

/-- Observable trace of a poll run: the final classification, the number of
attempts issued, and the number of `time.sleep` calls executed. -/
structure PollTrace where
  result : PollResult
  attempts : Nat
  sleeps : Nat
deriving DecidableEq

/-- The poll loop from attempt index `i` with `remaining` attempts left,
reading attempt `j`'s response from `responses j`. When the budget is
exhausted the `if not results` check (lines 85-87) fires and the request
fails with `timeout`. -/
def pollFrom (responses : Nat → Response) : Nat → Nat → PollTrace
  | _, 0 => ⟨.timeout, 0, 0⟩
  | i, n + 1 =>
    match pollStep (responses i) with
    | some r => ⟨r, 1, 0⟩
    | none =>
      let t := pollFrom responses (i + 1) n
      ⟨t.result, t.attempts + 1, t.sleeps + 1⟩

/-- `max_retries` in the code (line 45). -/
def max_retries : Nat := 18

/-- The whole poll loop of `process_hume`. -/
def poll (responses : Nat → Response) : PollTrace :=
  pollFrom responses 0 max_retries

/-! ### Aggregator (app.py lines 89-168) -/

/-- `confidence_emotions` (line 102). -/
def confidence_emotions : List String := ["calm", "focused", "content"]

/-- `nervousness_emotions` (line 103). -/
def nervousness_emotions : List String := ["nervous", "worried", "tense"]

/-- Python `str.lower()`, applied characterwise. -/
def strLower (s : String) : String := String.mk (s.data.map Char.toLower)

/-- Python `max(emotions, key=lambda x: x["score"])` starting from `e`:
a later element replaces the current maximum only when strictly greater,
so the first maximal element wins. -/
def maxByScore (e : Emotion) (es : List Emotion) : Emotion :=
  es.foldl (fun acc x => if x.score > acc.score then x else acc) e

/-- `emotion_scores[name] = emotion_scores.get(name, 0) + 1` on an
insertion-ordered dictionary, modelled as an association list. -/
def bump (m : List (String × Nat)) (k : String) : List (String × Nat) :=
  match m with
  | [] => [(k, 1)]
  | (k1, v) :: rest => if k1 = k then (k1, v + 1) :: rest else (k1, v) :: bump rest k

/-- `emotion_scores.get(key, 0)`. -/
def lookupD (m : List (String × Nat)) (key : String) : Nat :=
  match m with
  | [] => 0
  | (k, v) :: rest => if k = key then v else lookupD rest key

/-- The scan inside Python `max(emotion_scores, key=emotion_scores.get)`:
the current best key `k` (count `v`) is replaced only by a strictly larger
count. -/
def maxKeyAux (k : String) (v : Nat) : List (String × Nat) → String
  | [] => k
  | (k1, v1) :: rest => if v1 > v then maxKeyAux k1 v1 rest else maxKeyAux k v rest

/-- `max(emotion_scores, key=emotion_scores.get, default="Neutral")`
(line 135). -/
def maxKey : List (String × Nat) → String
  | [] => "Neutral"
  | (k, v) :: rest => maxKeyAux k v rest

/-- `switches` (line 139): the number of adjacent positions of the
dominant-label sequence whose labels differ. -/
def countSwitches : List String → Nat
  | [] => 0
  | [_] => 0
  | a :: b :: rest => (if a ≠ b then 1 else 0) + countSwitches (b :: rest)

/-- The mutable loop state of lines 106-108. -/
structure AggState where
  emotionScores : List (String × Nat)
  topEmotions : List String
  confidenceSum : ℚ
  nervousnessSum : ℚ
deriving DecidableEq

/-- Initial loop state (lines 106-108). -/
def initState : AggState := ⟨[], [], 0, 0⟩

/-- One iteration of the frame loop (lines 112-132). An empty emotions
collection is skipped (`continue`). Otherwise the frame's dominant emotion
is recorded and, when the frame has labels matching a score group, the mean
of the matching scores is added to that group's running sum. -/
def processFrame (s : AggState) (frame : Frame) : AggState :=
  match frame with
  | [] => s
  | e :: es =>
    let top := maxByScore e es
    let confScores := ((e :: es).filter
      (fun x => strLower x.name ∈ confidence_emotions)).map Emotion.score
    let nervScores := ((e :: es).filter
      (fun x => strLower x.name ∈ nervousness_emotions)).map Emotion.score
    { emotionScores := bump s.emotionScores top.name
      topEmotions := s.topEmotions ++ [top.name]
      confidenceSum :=
        s.confidenceSum +
          (if confScores.isEmpty then 0 else confScores.sum / confScores.length)
      nervousnessSum :=
        s.nervousnessSum +
          (if nervScores.isEmpty then 0 else nervScores.sum / nervScores.length) }

/-- The whole frame loop. -/
def aggLoop (predictions : List Frame) : AggState :=
  predictions.foldl processFrame initState

/-- The record built at lines 157-165. -/
structure AggResult where
  top_emotion : String
  engagement_score : ℚ
  engagement_level : String
  nervousness_score : ℚ
  nervousness_level : String
  confidence_score : ℚ
  confidence_level : String
deriving DecidableEq

/-- The frequency bucket of lines 148-154 applied to
`top_emotion_count / frame_count`. -/
def freqLevel (topCount frameCount : Nat) : String :=
  if (topCount : ℚ) / (frameCount : ℚ) ≥ 0.7 then "Excellent"
  else if (topCount : ℚ) / (frameCount : ℚ) ≥ 0.4 then "Good"
  else "Average"

/-- Lines 101-165 of `process_hume`: the full aggregation of a frame list
into the response record. `frame_count` is `len(predictions)` (line 109). -/
def aggregate (predictions : List Frame) : AggResult :=
  let frame_count := predictions.length
  let s := aggLoop predictions
  let final_top_emotion := maxKey s.emotionScores
  let top_emotion_count := lookupD s.emotionScores final_top_emotion
  let switches := countSwitches s.topEmotions
  let engagement0 : ℚ :=
    if s.topEmotions.length > 1 then
      (switches : ℚ) / ((s.topEmotions.length : ℚ) - 1)
    else 0
  let engagement_score := round2 engagement0
  let confidence_score :=
    if frame_count > 0 then round2 (s.confidenceSum / (frame_count : ℚ)) else 0
  let nervousness_score :=
    if frame_count > 0 then round2 (s.nervousnessSum / (frame_count : ℚ)) else 0
  let emotion_level := freqLevel top_emotion_count frame_count
  { top_emotion := final_top_emotion ++ " (" ++ emotion_level ++ ")"
    engagement_score := engagement_score
    engagement_level := get_level engagement_score
    nervousness_score := nervousness_score
    nervousness_level := get_level nervousness_score
    confidence_score := confidence_score
    confidence_level := get_level confidence_score }

/-- Lines 91-99 followed by the aggregation: an empty predictions list is
rejected ("No predictions found in Hume API results", status 500) before
any metric is computed; otherwise the aggregated record is returned. -/
def process_predictions (predictions : List Frame) : Option AggResult :=
  if predictions.isEmpty then none else some (aggregate predictions)

/-! ### Spec-side auxiliary definitions (for comparison with the code) -/

/-- Number of input frames whose emotions collection is non-empty: the
denominator the specification prescribes for the score averages. -/
def nonemptyCount (ps : List Frame) : Nat :=
  (ps.filter (fun f => ¬ f.isEmpty)).length

/-- Largest count appearing in the dominant-label dictionary. -/
def maxVal (m : List (String × Nat)) : Nat :=
  (m.map Prod.snd).foldr max 0

/-- First key of `m` whose count equals `M`, defaulting to "Neutral". -/
def firstWithD (M : Nat) (m : List (String × Nat)) : String :=
  match m.find? (fun p => p.2 = M) with
  | some p => p.1
  | none => "Neutral"

/-- The specification's `top_emotion` label: the first label (in insertion
order) whose count reaches the maximum count, defaulting to "Neutral" when
the dictionary is empty. -/
def specTopLabel (m : List (String × Nat)) : String :=
  firstWithD (maxVal m) m

/-! ### Helper lemmas -/

theorem round2_zero : round2 0 = 0 := by
  simp [round2]

theorem round2_bounds (q : ℚ) (h0 : 0 ≤ q) (h1 : q ≤ 1) :
    0 ≤ round2 q ∧ round2 q ≤ 1 := by
  unfold round2
  rw [round_eq]
  constructor
  · apply div_nonneg _ (by norm_num)
    have : (0 : ℤ) ≤ ⌊q * 100 + 1 / 2⌋ := Int.le_floor.mpr (by push_cast; linarith)
    exact_mod_cast this
  · rw [div_le_one (by norm_num)]
    have : ⌊q * 100 + 1 / 2⌋ < (101 : ℤ) := Int.floor_lt.mpr (by push_cast; linarith)
    have h2 : ⌊q * 100 + 1 / 2⌋ ≤ (100 : ℤ) := by omega
    exact_mod_cast h2

theorem countSwitches_le (l : List String) : countSwitches l ≤ l.length - 1 := by
  induction l with
  | nil => simp [countSwitches]
  | cons a t ih =>
    cases t with
    | nil => simp [countSwitches]
    | cons b r =>
      rw [countSwitches]
      have := ih
      simp only [List.length_cons] at *
      split <;> omega

theorem sum_bounds_of_mem_bounds (l : List ℚ) (h : ∀ x ∈ l, 0 ≤ x ∧ x ≤ 1) :
    0 ≤ l.sum ∧ l.sum ≤ (l.length : ℚ) := by
  induction l with
  | nil => simp
  | cons a t ih =>
    have ha := h a (List.mem_cons_self a t)
    have ht := ih fun x hx => h x (List.mem_cons_of_mem a hx)
    simp only [List.sum_cons, List.length_cons]
    push_cast
    constructor <;> linarith [ha.1, ha.2, ht.1, ht.2]

theorem groupMean_bounds (l : List ℚ) (h : ∀ x ∈ l, 0 ≤ x ∧ x ≤ 1) :
    0 ≤ (if l.isEmpty then 0 else l.sum / (l.length : ℚ)) ∧
      (if l.isEmpty then 0 else l.sum / (l.length : ℚ)) ≤ 1 := by
  split
  · norm_num
  · rename_i he
    have hl : l ≠ [] := by simpa [List.isEmpty_iff] using he
    have hlen : (0 : ℚ) < (l.length : ℚ) := by
      have : 0 < l.length := List.length_pos.mpr hl
      exact_mod_cast this
    obtain ⟨hs0, hs1⟩ := sum_bounds_of_mem_bounds l h
    exact ⟨div_nonneg hs0 hlen.le, by rw [div_le_one hlen]; exact hs1⟩

/-- Score-group means added by one frame stay in `[0, 1]` when every score
of the frame lies in `[0, 1]`. -/
theorem processFrame_sum_bounds (s : AggState) (f : Frame)
    (h : ∀ e ∈ f, 0 ≤ e.score ∧ e.score ≤ 1) :
    s.confidenceSum ≤ (processFrame s f).confidenceSum ∧
      (processFrame s f).confidenceSum ≤ s.confidenceSum + 1 ∧
      s.nervousnessSum ≤ (processFrame s f).nervousnessSum ∧
      (processFrame s f).nervousnessSum ≤ s.nervousnessSum + 1 := by
  cases f with
  | nil => simp [processFrame]
  | cons e es =>
    have hconf := groupMean_bounds
      (((e :: es).filter (fun x => strLower x.name ∈ confidence_emotions)).map Emotion.score)
      (by
        intro x hx
        obtain ⟨y, hy, rfl⟩ := List.mem_map.mp hx
        exact h y (List.mem_of_mem_filter hy))
    have hnerv := groupMean_bounds
      (((e :: es).filter (fun x => strLower x.name ∈ nervousness_emotions)).map Emotion.score)
      (by
        intro x hx
        obtain ⟨y, hy, rfl⟩ := List.mem_map.mp hx
        exact h y (List.mem_of_mem_filter hy))
    simp only [processFrame]
    refine ⟨by linarith [hconf.1], by linarith [hconf.2], by linarith [hnerv.1],
      by linarith [hnerv.2]⟩

/-- Running-sum bounds for the whole frame loop. -/
theorem foldl_sum_bounds (ps : List Frame) (s : AggState)
    (h : ∀ f ∈ ps, ∀ e ∈ f, 0 ≤ e.score ∧ e.score ≤ 1) :
    s.confidenceSum ≤ (List.foldl processFrame s ps).confidenceSum ∧
      (List.foldl processFrame s ps).confidenceSum ≤ s.confidenceSum + ps.length ∧
      s.nervousnessSum ≤ (List.foldl processFrame s ps).nervousnessSum ∧
      (List.foldl processFrame s ps).nervousnessSum ≤ s.nervousnessSum + ps.length := by
  induction ps generalizing s with
  | nil => simp
  | cons f rest ih =>
    have hstep := processFrame_sum_bounds s f (h f (List.mem_cons_self f rest))
    have htail := ih (processFrame s f) fun g hg => h g (List.mem_cons_of_mem f hg)
    simp only [List.foldl_cons, List.length_cons]
    push_cast
    refine ⟨by linarith [hstep.1, htail.1], by linarith [hstep.2.1, htail.2.1],
      by linarith [hstep.2.2.1, htail.2.2.1], by linarith [hstep.2.2.2, htail.2.2.2]⟩

theorem maxVal_cons (k : String) (v : Nat) (m : List (String × Nat)) :
    maxVal ((k, v) :: m) = max v (maxVal m) := rfl

theorem maxKeyAux_eq_firstWithD (rest : List (String × Nat)) (k : String) (v : Nat) :
    maxKeyAux k v rest = firstWithD (max v (maxVal rest)) ((k, v) :: rest) := by
  induction rest generalizing k v with
  | nil =>
    simp only [maxKeyAux, firstWithD, maxVal, List.map_nil, List.foldr_nil, Nat.max_zero]
    rw [List.find?_cons_of_pos _ (by simp)]
  | cons p tail ih =>
    obtain ⟨k1, v1⟩ := p
    rw [maxKeyAux]
    split
    · rename_i hgt
      have hM : max v (max v1 (maxVal tail)) = max v1 (maxVal tail) :=
        Nat.max_eq_right (le_of_lt (lt_of_lt_of_le hgt (Nat.le_max_left _ _)))
      have hvne : v ≠ max v1 (maxVal tail) :=
        Nat.ne_of_lt (lt_of_lt_of_le hgt (Nat.le_max_left _ _))
      have e1 : List.find? (fun p => decide (p.2 = max v1 (maxVal tail)))
            ((k, v) :: (k1, v1) :: tail) =
          List.find? (fun p => decide (p.2 = max v1 (maxVal tail))) ((k1, v1) :: tail) :=
        List.find?_cons_of_neg _ (by simp [hvne])
      have hr : firstWithD (max v1 (maxVal tail)) ((k, v) :: (k1, v1) :: tail) =
          firstWithD (max v1 (maxVal tail)) ((k1, v1) :: tail) := by
        unfold firstWithD
        rw [e1]
      rw [ih k1 v1, maxVal_cons, hM, hr]
    · rename_i hle
      have hv1v : v1 ≤ v := Nat.le_of_not_lt hle
      have hM : max v (max v1 (maxVal tail)) = max v (maxVal tail) := by
        rw [← Nat.max_assoc, Nat.max_eq_left hv1v]
      have hr : firstWithD (max v (maxVal tail)) ((k, v) :: (k1, v1) :: tail) =
          firstWithD (max v (maxVal tail)) ((k, v) :: tail) := by
        by_cases hv : v = max v (maxVal tail)
        · have e1 : List.find? (fun p => decide (p.2 = max v (maxVal tail)))
              ((k, v) :: (k1, v1) :: tail) = some (k, v) :=
            List.find?_cons_of_pos _ (by simp [← hv])
          have e2 : List.find? (fun p => decide (p.2 = max v (maxVal tail)))
              ((k, v) :: tail) = some (k, v) :=
            List.find?_cons_of_pos _ (by simp [← hv])
          unfold firstWithD
          rw [e1, e2]
        · have hvlt : v < max v (maxVal tail) :=
            Nat.lt_of_le_of_ne (Nat.le_max_left _ _) hv
          have hv1ne : v1 ≠ max v (maxVal tail) :=
            Nat.ne_of_lt (Nat.lt_of_le_of_lt hv1v hvlt)
          have e1 : List.find? (fun p => decide (p.2 = max v (maxVal tail)))
                ((k, v) :: (k1, v1) :: tail) =
              List.find? (fun p => decide (p.2 = max v (maxVal tail))) ((k1, v1) :: tail) :=
            List.find?_cons_of_neg _ (by simp [hv])
          have e2 : List.find? (fun p => decide (p.2 = max v (maxVal tail)))
                ((k1, v1) :: tail) =
              List.find? (fun p => decide (p.2 = max v (maxVal tail))) tail :=
            List.find?_cons_of_neg _ (by simp [hv1ne])
          have e3 : List.find? (fun p => decide (p.2 = max v (maxVal tail)))
                ((k, v) :: tail) =
              List.find? (fun p => decide (p.2 = max v (maxVal tail))) tail :=
            List.find?_cons_of_neg _ (by simp [hv])
          unfold firstWithD
          rw [e1, e2, e3]
      rw [ih k v, maxVal_cons, hM, hr]

/-- The code's dominant-label choice (Python `max` over the insertion-ordered
dictionary) equals the specification's "first label reaching the maximum
count", with default "Neutral" on the empty dictionary. -/
theorem maxKey_eq_specTopLabel (m : List (String × Nat)) :
    maxKey m = specTopLabel m := by
  cases m with
  | nil => rfl
  | cons p rest =>
    obtain ⟨k, v⟩ := p
    rw [maxKey, maxKeyAux_eq_firstWithD, specTopLabel, maxVal_cons]

/-- A run in which every attempt before the budget line falls through ends
with the timeout classification after exactly the remaining number of
attempts, sleeping once per attempt. -/
theorem pollFrom_timeout (responses : Nat → Response) :
    ∀ (n i : Nat), (∀ j, j < i + n → pollStep (responses j) = none) →
      pollFrom responses i n = ⟨.timeout, n, n⟩ := by
  intro n
  induction n with
  | zero => intro i h; rfl
  | succ n ih =>
    intro i h
    have h0 : pollStep (responses i) = none := h i (by omega)
    have ht := ih (i + 1) (fun j hj => h j (by omega))
    simp [pollFrom, h0, ht]

/-! ### Claim theorems -/

/-- C3 (counterexample): an HTTP 200 whose payload is not a well-formed
completed-result envelope does NOT make the poller sleep and continue: with
a first response of 200/unexpected-shape and a second response that would
complete, the code terminates at the first attempt with the bad-format
error (trace: 1 attempt, 0 sleeps), not with the success the claim's
continue-behaviour would produce (2 attempts, 1 sleep). -/
theorem C3_counterexample :
    pollFrom (fun i => if i = 0 then Response.resp 200 Body.badShape
        else Response.resp 200 Body.completed) 0 18 =
      ⟨PollResult.badFormat, 1, 0⟩ ∧
      (⟨PollResult.badFormat, 1, 0⟩ : PollTrace) ≠ ⟨PollResult.success, 2, 1⟩ := by
  decide

/-- C3 (amended): an HTTP 200 whose payload is not a well-formed
completed-result envelope immediately terminates the request with a
500-class error (unexpected-format for a wrong JSON shape, parse-failure
for unparseable text), consuming one attempt and never sleeping. -/
theorem C3_nonComplete_200_terminal (responses : Nat → Response) (i n : Nat) (body : Body)
    (hb : body ≠ Body.completed) (hr : responses i = Response.resp 200 body) :
    pollFrom responses i (n + 1) =
      ⟨if body = Body.badShape then PollResult.badFormat else PollResult.parseError, 1, 0⟩ ∧
      pollHttpStatus
        (if body = Body.badShape then PollResult.badFormat else PollResult.parseError) = 500 := by
  cases body with
  | completed => exact absurd rfl hb
  | badShape => exact ⟨by simp [pollFrom, pollStep, hr], rfl⟩
  | notJson => exact ⟨by simp [pollFrom, pollStep, hr], rfl⟩

/-- C3 witness: concrete run of the amended theorem. -/
theorem C3_nonComplete_200_terminal_witness :
    pollFrom (fun _ => Response.resp 200 Body.badShape) 0 (17 + 1) =
      ⟨PollResult.badFormat, 1, 0⟩ := by
  simpa using (C3_nonComplete_200_terminal (fun _ => Response.resp 200 Body.badShape) 0 17
    Body.badShape (by decide) rfl).1

/-- C4 (counterexample): an HTTP 502 response is NOT a terminal
ProviderError: the poller sleeps and retries after it. With a 502 first and
a 404 second, the run ends with the not-found classification after two
attempts and one sleep, not with providerError at the first attempt. -/
theorem C4_counterexample :
    pollFrom (fun i => if i = 0 then Response.resp 502 Body.badShape
        else Response.resp 404 Body.badShape) 0 18 =
      ⟨PollResult.notFound, 2, 1⟩ ∧
      PollResult.notFound ≠ PollResult.providerError := by
  decide

/-- C4 (amended): only an exact HTTP 500 is immediately terminal with the
provider-error classification (one attempt, no sleep, surfaced as 500);
other 5xx codes such as 502 and 503 fall through to sleep-and-retry. -/
theorem C4_only_500_terminal (responses : Nat → Response) (i n : Nat) (body : Body)
    (hr : responses i = Response.resp 500 body) :
    pollFrom responses i (n + 1) = ⟨PollResult.providerError, 1, 0⟩ ∧
      pollHttpStatus PollResult.providerError = 500 ∧
      pollStep (Response.resp 502 body) = none ∧
      pollStep (Response.resp 503 body) = none := by
  exact ⟨by simp [pollFrom, pollStep, hr], rfl, rfl, rfl⟩

/-- C4 witness: concrete run of the amended theorem. -/
theorem C4_only_500_terminal_witness :
    pollFrom (fun _ => Response.resp 500 Body.badShape) 0 (17 + 1) =
      ⟨PollResult.providerError, 1, 0⟩ :=
  (C4_only_500_terminal (fun _ => Response.resp 500 Body.badShape) 0 17 Body.badShape rfl).1

/-- C6: if no attempt within the retry budget yields a terminal
classification (every response falls through the status dispatch), the
poller ends with the Timeout classification after exactly max_retries
attempts, and that classification is surfaced as a 500-class error. -/
theorem C6_timeout_after_budget (responses : Nat → Response)
    (h : ∀ j, j < max_retries → pollStep (responses j) = none) :
    poll responses = ⟨PollResult.timeout, max_retries, max_retries⟩ ∧
      pollHttpStatus PollResult.timeout = 500 :=
  ⟨pollFrom_timeout responses max_retries 0 (by simpa using h), rfl⟩

/-- C6 witness: a provider that always answers 202 with an incomplete body
times out after the full budget of 18 attempts. -/
theorem C6_timeout_after_budget_witness :
    poll (fun _ => Response.resp 202 Body.badShape) =
      ⟨PollResult.timeout, max_retries, max_retries⟩ :=
  (C6_timeout_after_budget (fun _ => Response.resp 202 Body.badShape)
    (fun _ _ => rfl)).1

/-- C10: a status code other than 200, 401, 404 and 500 is never terminal:
the iteration falls through to the sleep, and the run proceeds to the next
attempt, adding one attempt and one sleep to whatever the remaining
attempts produce. -/
theorem C10_unhandled_status_retries (code : Nat) (body : Body)
    (h200 : code ≠ 200) (h401 : code ≠ 401) (h404 : code ≠ 404) (h500 : code ≠ 500) :
    pollStep (Response.resp code body) = none ∧
      ∀ (responses : Nat → Response) (i n : Nat), responses i = Response.resp code body →
        pollFrom responses i (n + 1) =
          ⟨(pollFrom responses (i + 1) n).result, (pollFrom responses (i + 1) n).attempts + 1,
            (pollFrom responses (i + 1) n).sleeps + 1⟩ := by
  have hstep : pollStep (Response.resp code body) = none := by
    simp [pollStep, h200, h401, h404, h500]
  refine ⟨hstep, fun responses i n hr => ?_⟩
  simp [pollFrom, hr, hstep]

/-- Frames all of whose emotions collections are empty leave the loop state
unchanged. -/
theorem foldl_all_empty (ps : List Frame) (s : AggState)
    (h : ∀ f ∈ ps, f = ([] : Frame)) :
    List.foldl processFrame s ps = s := by
  induction ps generalizing s with
  | nil => rfl
  | cons f rest ih =>
    have hf : f = ([] : Frame) := h f (List.mem_cons_self f rest)
    rw [List.foldl_cons, hf]
    exact ih s fun g hg => h g (List.mem_cons_of_mem f hg)

/-- C1 (counterexample): with one empty-emotions frame followed by one
calm-0.8 frame, the code divides by frame_count = 2 and reports 0.4, while
a denominator equal to the number of non-empty frames (1) would give 0.8. -/
theorem C1_counterexample :
    (aggregate [[], [⟨"calm", 4/5⟩]]).confidence_score = 2/5 ∧
      round2 ((aggLoop [[], [⟨"calm", 4/5⟩]]).confidenceSum /
        (nonemptyCount [[], [⟨"calm", 4/5⟩]] : ℚ)) = 4/5 ∧
      (2 : ℚ)/5 ≠ 4/5 := by
  refine ⟨?_, ?_, by norm_num⟩
  · simp only [aggregate, aggLoop, initState, processFrame, maxByScore, bump, lookupD, maxKey,
      maxKeyAux, countSwitches, freqLevel, strLower, confidence_emotions, nervousness_emotions,
      round2, List.foldl, List.filter, List.map]
    norm_num [round_eq]
  · simp only [aggLoop, initState, processFrame, maxByScore, nonemptyCount, strLower,
      confidence_emotions, nervousness_emotions, round2, List.foldl, List.filter, List.map,
      List.length]
    norm_num [round_eq]

/-- C1 (amended): the denominator used to finalize confidence_score and
nervousness_score is the TOTAL number of input frames (len(predictions),
line 109), counting frames with an empty emotions collection as well, not
only the frames with non-empty emotions. -/
theorem C1_denominator_is_total_frames (ps : List Frame) (h : ps ≠ []) :
    (aggregate ps).confidence_score =
      round2 ((aggLoop ps).confidenceSum / (ps.length : ℚ)) ∧
      (aggregate ps).nervousness_score =
        round2 ((aggLoop ps).nervousnessSum / (ps.length : ℚ)) := by
  have hl : 0 < ps.length := List.length_pos.mpr h
  constructor <;> simp [aggregate, hl]

/-- C1 witness: concrete instance of the amended theorem. -/
theorem C1_denominator_is_total_frames_witness :
    (aggregate [[], [⟨"calm", 4/5⟩]]).confidence_score =
      round2 ((aggLoop [[], [⟨"calm", 4/5⟩]]).confidenceSum /
        (([[], [⟨"calm", 4/5⟩]] : List Frame).length : ℚ)) :=
  (C1_denominator_is_total_frames [[], [⟨"calm", 4/5⟩]] (by simp)).1

/-- C2 (counterexample): an input whose only frame has an empty emotions
collection (zero valid frames after filtering) does NOT fail: the code
returns a full metric record (Neutral top emotion, all scores 0). -/
theorem C2_counterexample :
    process_predictions [[]] =
      some ⟨"Neutral (Average)", 0, "Low", 0, "Low", 0, "Low"⟩ ∧
      process_predictions [[]] ≠ none := by
  have h : process_predictions [[]] =
      some ⟨"Neutral (Average)", 0, "Low", 0, "Low", 0, "Low"⟩ := by
    simp only [process_predictions, aggregate, aggLoop, initState, processFrame, maxByScore,
      bump, lookupD, maxKey, maxKeyAux, countSwitches, freqLevel, get_level, round2, strLower,
      confidence_emotions, nervousness_emotions, List.foldl, List.filter, List.map,
      List.isEmpty]
    norm_num [round_eq]
    rfl
  exact ⟨h, by rw [h]; exact Option.some_ne_none _⟩

/-- C2 (amended): only an empty frame list is rejected before aggregation
(the "no predictions" error); a non-empty list in which every frame has an
empty emotions collection is aggregated successfully into a record with
top_emotion "Neutral (Average)" and all three scores 0 ("Low"). -/
theorem C2_empty_list_vs_all_empty_frames :
    process_predictions ([] : List Frame) = none ∧
      ∀ ps : List Frame, ps ≠ [] → (∀ f ∈ ps, f = ([] : Frame)) →
        process_predictions ps =
          some ⟨"Neutral (Average)", 0, "Low", 0, "Low", 0, "Low"⟩ := by
  refine ⟨rfl, fun ps hne hall => ?_⟩
  have hloop : List.foldl processFrame (⟨[], [], 0, 0⟩ : AggState) ps =
      (⟨[], [], 0, 0⟩ : AggState) :=
    foldl_all_empty ps _ hall
  have hl : 0 < ps.length := List.length_pos.mpr hne
  have hempty : ps.isEmpty = false := by
    cases ps with
    | nil => exact absurd rfl hne
    | cons a t => rfl
  simp only [process_predictions, hempty, Bool.false_eq_true, if_false, Option.some_inj,
    aggregate, aggLoop, initState, hloop, maxKey, lookupD, countSwitches, List.length_nil]
  norm_num [hl, round2_zero, get_level, freqLevel, zero_div]
  all_goals rfl

/-- C2 witness: concrete instance of the amended theorem. -/
theorem C2_empty_list_vs_all_empty_frames_witness :
    process_predictions [[]] =
      some ⟨"Neutral (Average)", 0, "Low", 0, "Low", 0, "Low"⟩ :=
  C2_empty_list_vs_all_empty_frames.2 [[]] (by simp)
    (fun f hf => by simpa using hf)

/-- C5 (counterexample): the top_emotion field is not the bare label: for a
single calm frame the code returns "calm (Excellent)", the label with the
frequency bucket attached, which differs from the bare label "calm". -/
theorem C5_counterexample :
    (aggregate [[⟨"calm", 4/5⟩]]).top_emotion = "calm (Excellent)" ∧
      "calm (Excellent)" ≠ "calm" := by
  refine ⟨?_, by decide⟩
  simp only [aggregate, aggLoop, initState, processFrame, maxByScore, bump, lookupD, maxKey,
    maxKeyAux, countSwitches, freqLevel, strLower, confidence_emotions, nervousness_emotions,
    round2, List.foldl, List.filter, List.map]
  norm_num
  rfl

/-- C5 (amended): the label part of top_emotion is chosen exactly as the
claim states (first label reaching the maximum count in insertion order,
"Neutral" when the dictionary is empty), but the field is that label with
" (Excellent|Good|Average)" appended — the frequency bucket of the dominant
label — rather than the bare label. -/
theorem C5_top_emotion_label_with_suffix (ps : List Frame) :
    (aggregate ps).top_emotion =
      specTopLabel (aggLoop ps).emotionScores ++ " (" ++
        freqLevel
          (lookupD (aggLoop ps).emotionScores (specTopLabel (aggLoop ps).emotionScores))
          ps.length ++ ")" := by
  have h := maxKey_eq_specTopLabel (aggLoop ps).emotionScores
  simp only [aggregate, ← h]

/-- C10 witness: a 202 response at attempt 0 of a two-attempt run sleeps
and continues into attempt 1. -/
theorem C10_unhandled_status_retries_witness :
    pollStep (Response.resp 202 Body.badShape) = none ∧
      pollFrom (fun _ => Response.resp 202 Body.badShape) 0 (1 + 1) =
        ⟨(pollFrom (fun _ => Response.resp 202 Body.badShape) (0 + 1) 1).result,
          (pollFrom (fun _ => Response.resp 202 Body.badShape) (0 + 1) 1).attempts + 1,
          (pollFrom (fun _ => Response.resp 202 Body.badShape) (0 + 1) 1).sleeps + 1⟩ :=
  ⟨(C10_unhandled_status_retries 202 Body.badShape (by decide) (by decide) (by decide)
      (by decide)).1,
    (C10_unhandled_status_retries 202 Body.badShape (by decide) (by decide) (by decide)
      (by decide)).2 (fun _ => Response.resp 202 Body.badShape) 0 1 rfl⟩

/-- C7: engagement_score is the rounded ratio of adjacent dominant-label
switches to (sequence length - 1) when the dominant-label sequence has at
least two entries, and 0.0 otherwise; the sequence [X, X, Y, X] gives 0.67,
and any single-frame input gives 0.0. -/
theorem C7_engagement_score :
    (∀ ps : List Frame,
        (aggregate ps).engagement_score =
          if 2 ≤ (aggLoop ps).topEmotions.length then
            round2 ((countSwitches (aggLoop ps).topEmotions : ℚ) /
              (((aggLoop ps).topEmotions.length : ℚ) - 1))
          else 0) ∧
      (aggLoop [[⟨"X", 1⟩], [⟨"X", 1⟩], [⟨"Y", 1⟩], [⟨"X", 1⟩]]).topEmotions =
        ["X", "X", "Y", "X"] ∧
      (aggregate [[⟨"X", 1⟩], [⟨"X", 1⟩], [⟨"Y", 1⟩], [⟨"X", 1⟩]]).engagement_score =
        67/100 ∧
      ∀ f : Frame, (aggregate [f]).engagement_score = 0 := by
  refine ⟨fun ps => ?_, ?_, ?_, fun f => ?_⟩
  · by_cases h : 2 ≤ (aggLoop ps).topEmotions.length
    · have h1 : 1 < (aggLoop ps).topEmotions.length := h
      simp [aggregate, h, h1]
    · have h1 : ¬ (1 < (aggLoop ps).topEmotions.length) := h
      simp [aggregate, h, h1, round2_zero]
  · simp only [aggLoop, initState, processFrame, maxByScore, strLower, confidence_emotions,
      nervousness_emotions, List.foldl, List.filter, List.map]
    norm_num
  · have h2 : (aggLoop [[⟨"X", 1⟩], [⟨"X", 1⟩], [⟨"Y", 1⟩], [⟨"X", 1⟩]]).topEmotions =
        ["X", "X", "Y", "X"] := by
      simp only [aggLoop, initState, processFrame, maxByScore, strLower, confidence_emotions,
        nervousness_emotions, List.foldl, List.filter, List.map]
      norm_num
    have hsw : countSwitches ["X", "X", "Y", "X"] = 2 := by decide
    have heq : (aggregate [[⟨"X", 1⟩], [⟨"X", 1⟩], [⟨"Y", 1⟩], [⟨"X", 1⟩]]).engagement_score =
        round2 (if 1 < (aggLoop [[⟨"X", 1⟩], [⟨"X", 1⟩], [⟨"Y", 1⟩],
              [⟨"X", 1⟩]]).topEmotions.length then
          (countSwitches (aggLoop [[⟨"X", 1⟩], [⟨"X", 1⟩], [⟨"Y", 1⟩],
              [⟨"X", 1⟩]]).topEmotions : ℚ) /
            (((aggLoop [[⟨"X", 1⟩], [⟨"X", 1⟩], [⟨"Y", 1⟩],
              [⟨"X", 1⟩]]).topEmotions.length : ℚ) - 1)
        else 0) := rfl
    rw [heq, h2, hsw]
    norm_num [round2, round_eq]
  · cases f with
    | nil => simp [aggregate, aggLoop, initState, processFrame, round2_zero]
    | cons e es => simp [aggregate, aggLoop, initState, processFrame, round2_zero]

/-- C8: get_level returns "High" iff the score is at least 0.7, "Moderate"
iff it is in [0.4, 0.7), and "Low" iff it is below 0.4; the boundary values
0.7, 0.69, 0.4, 0.39 map to High, Moderate, Moderate, Low; and each of the
three level fields of the response is get_level of its score field. -/
theorem C8_get_level_thresholds :
    (∀ s : ℚ,
        (get_level s = "High" ↔ 0.7 ≤ s) ∧
        (get_level s = "Moderate" ↔ 0.4 ≤ s ∧ s < 0.7) ∧
        (get_level s = "Low" ↔ s < 0.4)) ∧
      get_level 0.7 = "High" ∧ get_level 0.69 = "Moderate" ∧
      get_level 0.4 = "Moderate" ∧ get_level 0.39 = "Low" ∧
      ∀ ps : List Frame,
        (aggregate ps).confidence_level = get_level (aggregate ps).confidence_score ∧
        (aggregate ps).nervousness_level = get_level (aggregate ps).nervousness_score ∧
        (aggregate ps).engagement_level = get_level (aggregate ps).engagement_score := by
  refine ⟨fun s => ⟨?_, ?_, ?_⟩, by unfold get_level; norm_num, by unfold get_level; norm_num,
    by unfold get_level; norm_num, by unfold get_level; norm_num, fun ps => ⟨rfl, rfl, rfl⟩⟩
  · unfold get_level
    split_ifs with h1 h2
    · exact iff_of_true rfl h1
    · exact iff_of_false (by decide) h1
    · exact iff_of_false (by decide) h1
  · unfold get_level
    split_ifs with h1 h2
    · exact iff_of_false (by decide) (fun hc => absurd h1 (not_le.mpr hc.2))
    · exact iff_of_true rfl ⟨h2, lt_of_not_le h1⟩
    · exact iff_of_false (by decide) (fun hc => h2 hc.1)
  · unfold get_level
    split_ifs with h1 h2
    · exact iff_of_false (by decide) (fun hc => by rw [ge_iff_le] at h1; linarith)
    · exact iff_of_false (by decide) (fun hc => by rw [ge_iff_le] at h2; linarith)
    · exact iff_of_true rfl (lt_of_not_le h2)

/-- C9: engagement_score always lies in [0, 1]; and when every per-emotion
score of the input lies in [0, 1], confidence_score and nervousness_score
lie in [0, 1] as well (each frame contributes at most the mean of scores
bounded by 1, and the divisor frame_count is at least the number of
contributing frames). -/
theorem C9_scores_in_unit_interval (ps : List Frame) :
    (0 ≤ (aggregate ps).engagement_score ∧ (aggregate ps).engagement_score ≤ 1) ∧
      ((∀ f ∈ ps, ∀ e ∈ f, 0 ≤ e.score ∧ e.score ≤ 1) →
        (0 ≤ (aggregate ps).confidence_score ∧ (aggregate ps).confidence_score ≤ 1) ∧
          (0 ≤ (aggregate ps).nervousness_score ∧
            (aggregate ps).nervousness_score ≤ 1)) := by
  constructor
  · have heng : (aggregate ps).engagement_score =
        round2 (if 1 < (aggLoop ps).topEmotions.length then
          (countSwitches (aggLoop ps).topEmotions : ℚ) /
            (((aggLoop ps).topEmotions.length : ℚ) - 1)
        else 0) := rfl
    rw [heng]
    by_cases h : 1 < (aggLoop ps).topEmotions.length
    · rw [if_pos h]
      have hsw : countSwitches (aggLoop ps).topEmotions ≤
          (aggLoop ps).topEmotions.length - 1 := countSwitches_le _
      have hlen : (1 : ℚ) < ((aggLoop ps).topEmotions.length : ℚ) := by exact_mod_cast h
      have hnum : (0 : ℚ) ≤ (countSwitches (aggLoop ps).topEmotions : ℚ) := by positivity
      have hub : (countSwitches (aggLoop ps).topEmotions : ℚ) ≤
          ((aggLoop ps).topEmotions.length : ℚ) - 1 := by
        have h1 : 1 ≤ (aggLoop ps).topEmotions.length := Nat.one_le_of_lt h
        have := (Nat.cast_le (α := ℚ)).mpr hsw
        rwa [Nat.cast_sub h1, Nat.cast_one] at this
      exact round2_bounds _ (div_nonneg hnum (by linarith))
        (by rw [div_le_one (by linarith)]; linarith)
    · rw [if_neg h]
      exact round2_bounds 0 le_rfl (by norm_num)
  · intro hb
    have hsums := foldl_sum_bounds ps initState hb
    have hcs : (aggregate ps).confidence_score =
        (if 0 < ps.length then
          round2 ((aggLoop ps).confidenceSum / (ps.length : ℚ)) else 0) := rfl
    have hns : (aggregate ps).nervousness_score =
        (if 0 < ps.length then
          round2 ((aggLoop ps).nervousnessSum / (ps.length : ℚ)) else 0) := rfl
    rw [hcs, hns]
    by_cases hlen : 0 < ps.length
    · rw [if_pos hlen, if_pos hlen]
      have hlq : (0 : ℚ) < (ps.length : ℚ) := by exact_mod_cast hlen
      have hc0 : (0 : ℚ) ≤ (aggLoop ps).confidenceSum := by
        simpa [aggLoop, initState] using hsums.1
      have hc1 : (aggLoop ps).confidenceSum ≤ (ps.length : ℚ) := by
        have := hsums.2.1
        simpa [aggLoop, initState] using this
      have hn0 : (0 : ℚ) ≤ (aggLoop ps).nervousnessSum := by
        simpa [aggLoop, initState] using hsums.2.2.1
      have hn1 : (aggLoop ps).nervousnessSum ≤ (ps.length : ℚ) := by
        have := hsums.2.2.2
        simpa [aggLoop, initState] using this
      exact ⟨round2_bounds _ (div_nonneg hc0 hlq.le)
          (by rw [div_le_one hlq]; exact hc1),
        round2_bounds _ (div_nonneg hn0 hlq.le)
          (by rw [div_le_one hlq]; exact hn1)⟩
    · rw [if_neg hlen, if_neg hlen]
      norm_num

/-- C9 witness: concrete instance with one frame whose single score is 1/2. -/
theorem C9_scores_in_unit_interval_witness :
    (0 ≤ (aggregate [[⟨"calm", 1/2⟩]]).engagement_score ∧
        (aggregate [[⟨"calm", 1/2⟩]]).engagement_score ≤ 1) ∧
      (0 ≤ (aggregate [[⟨"calm", 1/2⟩]]).confidence_score ∧
          (aggregate [[⟨"calm", 1/2⟩]]).confidence_score ≤ 1) ∧
        (0 ≤ (aggregate [[⟨"calm", 1/2⟩]]).nervousness_score ∧
          (aggregate [[⟨"calm", 1/2⟩]]).nervousness_score ≤ 1) :=
  ⟨(C9_scores_in_unit_interval [[⟨"calm", 1/2⟩]]).1,
    (C9_scores_in_unit_interval [[⟨"calm", 1/2⟩]]).2
      (fun f hf e he => by
        simp only [List.mem_singleton] at hf
        subst hf
        simp only [List.mem_singleton] at he
        subst he
        norm_num)⟩

end Hume
